import Mathlib

/-!
Verification development for the pwv_kpno end-user functions
(`src/pwv_kpno/end_user_functions.py`).

The Python source is shallowly embedded below. Machine floats are modelled
as exact rationals (ℚ); the astropy tables are modelled as Lean lists:
a PWV model table is a list of (date, pwv) pairs (seconds since epoch,
millimeters), a transmission grid is a shared wavelength axis together with
a list of (pwv level, transmission row) pairs. Python exceptions become
`Except` errors whose constructors follow the error taxonomy
(InvalidArgument / OutOfRange / GapTooLarge, plus the out-of-bounds
ValueError that scipy.interpolate.interpn raises by default).
-/

namespace PwvKpno

/-- Error taxonomy for the `transmission` pipeline.  `invalidArgument`
stands for the TypeError / ValueError raised by the argument type and
time-zone checks, `outOfRange` for the two range ValueErrors, `gapTooLarge`
for the gap ValueError, and `interpOutOfBounds` for the ValueError that
`scipy.interpolate.interpn` raises when a query point is out of bounds
(its default is bounds_error=True; the source calls it with defaults). -/
inductive TransmissionError where
  | invalidArgument (msg : String)
  | outOfRange (msg : String)
  | gapTooLarge (msg : String)
  | interpOutOfBounds (msg : String)
deriving DecidableEq, Repr

/-- A `datetime.datetime` argument as the core uses it: the instant it
denotes (the value `_timestamp(date)` computes, in seconds since the Unix
epoch) together with its `tzinfo` attribute (`none` models a naive
datetime, `some o` a timezone at UTC offset `o`). -/
structure PyDatetime where
  epochSeconds : ℚ
  tzinfo : Option ℤ
deriving DecidableEq, Repr

/-- Embedding of `_check_transmission_args(date, airmass, model)`
(end_user_functions.py lines 271-321).  `modelDates` is the `date` column
of the PWV model table.  The airmass argument is received but — exactly as
in the source — only its type is ever checked (`isinstance(airmass,
(float, int))`), which a rational argument always satisfies, so the value
is never inspected. -/
def check_transmission_args (date : PyDatetime) (airmass : ℚ)
    (modelDates : List ℚ) : Except TransmissionError Unit :=
  match date.tzinfo with
  | none => .error (.invalidArgument "date has no timezone information")
  | some _ =>
    let timestamp := date.epochSeconds
    let w_data_less_than := modelDates.filter (fun d => decide (d < timestamp))
    if w_data_less_than.length < 1 then
      .error (.outOfRange "No local SuomiNet data found for datetimes before min date")
    else
      let w_data_greater_than := modelDates.filter (fun d => decide (timestamp < d))
      if w_data_greater_than.length < 1 then
        .error (.outOfRange "No local SuomiNet data found for datetimes after max date")
      else
        let diff := modelDates.map (fun d => d - timestamp)
        let pos := diff.filter (fun d => decide (0 < d))
        let neg := diff.filter (fun d => decide (d < 0))
        let interval := (pos.min?.getD 0) - (neg.max?.getD 0)
        let three_days_in_seconds : ℚ := 24 * 60 * 60
        if three_days_in_seconds < interval then
          .error (.gapTooLarge "datetime falls within interval of missing SuomiNet data larger than 3 days")
        else
          .ok ()

/-- Embedding of `numpy.interp(x, xp, fp)` for a scalar `x`, with `xp` and
`fp` zipped into one list of (x, f) pairs: piecewise-linear interpolation
over a strictly increasing abscissa list, clamping to the end values
outside the data range (numpy's default left/right behavior). -/
def npInterp (x : ℚ) : List (ℚ × ℚ) → ℚ
  | [] => 0
  | [(_, f0)] => f0
  | (x0, f0) :: (x1, f1) :: rest =>
    if x < x0 then f0
    else if x ≤ x1 then f0 + (f1 - f0) * (x - x0) / (x1 - x0)
    else npInterp x ((x1, f1) :: rest)

/-- The line-of-sight PWV computed by `transmission` (line 347):
`np.interp(timestamp, model date column, model pwv column) * airmass`. -/
def line_of_sight_pwv (series : List (ℚ × ℚ)) (timestamp airmass : ℚ) : ℚ :=
  npInterp timestamp series * airmass

/-- `numpy.searchsorted(xs, x)` with the default side (left) on a sorted
ascending list: the number of elements strictly below `x`, i.e. the first
index whose element is not below `x`. -/
def searchsorted (xs : List ℚ) (x : ℚ) : Nat :=
  (xs.takeWhile (fun a => decide (a < x))).length

/-- The bracketing index that scipy's RegularGridInterpolator finds for a
coordinate `x` in one grid dimension: `searchsorted(grid, x) - 1`, clipped
into `[0, grid.size - 2]`. -/
def find_index (xs : List ℚ) (x : ℚ) : Nat :=
  min (searchsorted xs x - 1) (xs.length - 2)

/-- The normalized distance of `x` from the lower bracketing grid node in
one dimension, as RegularGridInterpolator computes it. -/
def norm_dist (xs : List ℚ) (x : ℚ) : ℚ :=
  let i := find_index xs x
  (x - xs.getD i 0) / (xs.getD (i + 1) 0 - xs.getD i 0)

/-- Value of the 2D table at a pair of grid indices (row = PWV level,
column = wavelength). -/
def grid_value (V : List (List ℚ)) (i j : Nat) : ℚ :=
  (V.getD i []).getD j 0

/-- Bilinear evaluation of scipy's RegularGridInterpolator at a single
point `(p, w)` on the rectilinear grid `(levels, wl)` with value table
`V` (rows indexed by level, columns by wavelength). -/
def interp_point (levels wl : List ℚ) (V : List (List ℚ)) (p w : ℚ) : ℚ :=
  let i := find_index levels p
  let j := find_index wl w
  let tp := norm_dist levels p
  let tw := norm_dist wl w
  (1 - tp) * (1 - tw) * grid_value V i j
    + (1 - tp) * tw * grid_value V i (j + 1)
    + tp * (1 - tw) * grid_value V (i + 1) j
    + tp * tw * grid_value V (i + 1) (j + 1)

/-- The bounds test RegularGridInterpolator applies to each coordinate of
a query point when bounds_error=True (the default, which the source call
at line 365 keeps): the coordinate must lie in the closed span of the
grid nodes of its dimension. -/
def in_bounds (xs : List ℚ) (x : ℚ) : Bool :=
  decide (xs.headD 0 ≤ x) && decide (x ≤ xs.getLastD 0)

/-- Embedding of `scipy.interpolate.interpn(points=(levels, wl), values=V,
xi)` as called at line 365: with the default bounds_error=True an
out-of-bounds query point raises a ValueError; otherwise each query point
is evaluated by bilinear interpolation. -/
def interpn (levels wl : List ℚ) (V : List (List ℚ)) (xi : List (ℚ × ℚ)) :
    Except TransmissionError (List ℚ) :=
  if xi.all (fun q => in_bounds levels q.1 && in_bounds wl q.2) then
    .ok (xi.map (fun q => interp_point levels wl V q.1 q.2))
  else
    .error (.interpOutOfBounds "one of the requested xi is out of bounds")

/-- The precomputed transmission grid: the shared wavelength axis (read
from the first atmospheric model file) and, per model file, the PWV level
parsed from the file name together with that file's transmission column. -/
structure Grid where
  wavelength : List ℚ
  curves : List (ℚ × List ℚ)
deriving DecidableEq, Repr

/-- The spectrum-interpolation step of `transmission` (lines 353-367): the
grid's levels and rows are collected and `interpn` is evaluated at
`xi = [[pwv, x] for x in wavelength]`. -/
def interpolate_spectrum (grid : Grid) (pwv : ℚ) :
    Except TransmissionError (List ℚ) :=
  interpn (grid.curves.map Prod.fst) grid.wavelength
    (grid.curves.map Prod.snd)
    (grid.wavelength.map (fun x => (pwv, x)))

/-- Embedding of `transmission(date, airmass)` (lines 324-376).  The two
collaborator views that the Python function reads from disk — the PWV
model table and the atmospheric model files — are explicit inputs:
`series` is the (date, pwv) table, `grid` the transmission grid.  The
result is the table of (wavelength, transmission) pairs. -/
def transmission (series : List (ℚ × ℚ)) (grid : Grid)
    (date : PyDatetime) (airmass : ℚ) :
    Except TransmissionError (List (ℚ × ℚ)) :=
  match check_transmission_args date airmass (series.map Prod.fst) with
  | .error e => .error e
  | .ok _ =>
    let timestamp := date.epochSeconds
    let pwv := line_of_sight_pwv series timestamp airmass
    match interpolate_spectrum grid pwv with
    | .error e => .error e
    | .ok t => .ok (grid.wavelength.zip t)

/-- Two sequential calls of `transmission` against one collaborator
snapshot: the state (series and grid) is threaded explicitly and the two
results are returned with the final state, mirroring that the Python
function only reads the collaborator data. -/
def transmission_twice (st : List (ℚ × ℚ) × Grid)
    (date : PyDatetime) (airmass : ℚ) :
    (Except TransmissionError (List (ℚ × ℚ))
      × Except TransmissionError (List (ℚ × ℚ)))
      × (List (ℚ × ℚ) × Grid) :=
  ((transmission st.1 st.2 date airmass, transmission st.1 st.2 date airmass), st)

/-- The `date` attribute objects stored in the searched tables: the
datetime fields that `_search_dt_table` may match against. -/
structure PyDate where
  year : ℤ
  month : ℤ
  day : ℤ
  hour : ℤ
deriving DecidableEq, Repr

/-- The inner `check_type` of `_check_search_args` (lines 153-161): a
`None` value passes; an integer must satisfy `0 < value < bound`. -/
def check_type (arg : String) (value : Option ℤ) (bound : ℤ) :
    Except String Unit :=
  match value with
  | none => .ok ()
  | some v =>
    if 0 < v ∧ v < bound then .ok ()
    else .error ("Invalid value for " ++ arg)

/-- Embedding of `_check_search_args(year, month, day, hour)` (lines
128-165).  `currentYear` stands for `datetime.now().year`.  The bounds are
those of the source: month below 13, day below 32, hour below 25. -/
def check_search_args (currentYear : ℤ) (year month day hour : Option ℤ) :
    Except String Unit :=
  match year with
  | some y =>
    if y < 2010 then
      .error "pwv_kpno does not provide data years prior to 2010"
    else if currentYear < y then
      .error "year is larger than current year"
    else
      match check_type "month" month 13 with
      | .error e => .error e
      | .ok _ =>
        match check_type "day" day 32 with
        | .error e => .error e
        | .ok _ => check_type "hour" hour 25
  | none =>
    match check_type "month" month 13 with
    | .error e => .error e
    | .ok _ =>
      match check_type "day" day 32 with
      | .error e => .error e
      | .ok _ => check_type "hour" hour 25

/-- Embedding of `_search_dt_table(data_tab, **params)` (lines 168-193):
keep the rows whose date attributes equal every parameter that is not
`None`. -/
def search_dt_table (rows : List (PyDate × ℚ))
    (year month day hour : Option ℤ) : List (PyDate × ℚ) :=
  rows.filter (fun r =>
    (match year with | none => true | some v => decide (r.1.year = v)) &&
    (match month with | none => true | some v => decide (r.1.month = v)) &&
    (match day with | none => true | some v => decide (r.1.day = v)) &&
    (match hour with | none => true | some v => decide (r.1.hour = v)))

/-- Embedding of `measured_pwv(year, month, day, hour)` (lines 196-233):
validate the arguments with `_check_search_args`, then filter the measured
table (an explicit input here) with `_search_dt_table`. -/
def measured_pwv (currentYear : ℤ) (tab : List (PyDate × ℚ))
    (year month day hour : Option ℤ) :
    Except String (List (PyDate × ℚ)) :=
  match check_search_args currentYear year month day hour with
  | .error e => .error e
  | .ok _ => .ok (search_dt_table tab year month day hour)

/-- Embedding of `modeled_pwv(year, month, day, hour)` (lines 236-268):
same validation gate, filtering the modeled table. -/
def modeled_pwv (currentYear : ℤ) (tab : List (PyDate × ℚ))
    (year month day hour : Option ℤ) :
    Except String (List (PyDate × ℚ)) :=
  match check_search_args currentYear year month day hour with
  | .error e => .error e
  | .ok _ => .ok (search_dt_table tab year month day hour)


/-- C1 (code evaluated at the failing input): for the model dates
[0, 200000] and the query timestamp 100000 the two one-sided gaps are
100000 each, so their sum 200000 is at most 259200 seconds and the claim
says the check succeeds; the code nonetheless rejects with GapTooLarge,
because its threshold constant, although named three_days_in_seconds and
reported as 3 days in the error message, is 24 * 60 * 60 = 86400 seconds. -/
theorem gap_threshold_is_one_day_not_three :
    ((100000 - 0 : ℚ) + (200000 - 100000)) ≤ 259200
      ∧ check_transmission_args ⟨100000, some 0⟩ 1 [0, 200000]
        = .error (.gapTooLarge
            "datetime falls within interval of missing SuomiNet data larger than 3 days") := by
  refine ⟨by norm_num, ?_⟩
  norm_num [check_transmission_args, List.filter, List.min?, List.max?]

/-- C3 (amended): the argument validation never inspects the airmass
value — only its Python type is checked — so its outcome is the same for
every (numeric) airmass, positive or not; non-positive airmass is not
rejected. -/
theorem check_args_independent_of_airmass (date : PyDatetime)
    (modelDates : List ℚ) (a b : ℚ) :
    check_transmission_args date a modelDates
      = check_transmission_args date b modelDates := rfl

/-- C3 counterexample: airmass 0 is non-positive, yet with otherwise valid
arguments and a grid whose lowest level is 0 the whole transmission
computation succeeds and returns a spectrum instead of failing with an
InvalidArgument error. -/
theorem nonpositive_airmass_not_rejected :
    ((0 : ℚ) ≤ 0)
      ∧ transmission [(0, 3), (100, 3)]
          ⟨[7000, 8500, 10000], [(0, [1, 1, 1]), (10, [1/2, 1/2, 1/2])]⟩
          ⟨50, some 0⟩ 0
        = .ok [(7000, 1), (8500, 1), (10000, 1)] := by
  refine ⟨le_refl 0, ?_⟩
  norm_num [transmission, check_transmission_args, line_of_sight_pwv, npInterp,
    interpolate_spectrum, interpn, in_bounds, interp_point, find_index, searchsorted,
    norm_dist, grid_value, List.filter, List.min?, List.max?, List.takeWhile, List.zip]

/-- C4 counterexample: for the model dates [0, 100] the query timestamp 0
equals the earliest sample — it is neither strictly before the earliest
nor strictly after the latest sample — yet the check rejects it with
OutOfRange, because the code demands a sample strictly before the query. -/
theorem boundary_timestamp_rejected :
    check_transmission_args ⟨0, some 0⟩ 1 [0, 100]
        = .error (.outOfRange
            "No local SuomiNet data found for datetimes before min date")
      ∧ ¬ ((0 : ℚ) < 0 ∨ (100 : ℚ) < 0) := by
  refine ⟨?_, by norm_num⟩
  norm_num [check_transmission_args, List.filter]

/-- C2 counterexample: for the grid with levels 2 and 6 the line-of-sight
PWV of this query is 3.5 * 2 = 7, strictly above the maximum level 6; the
claim says the interpolation clamps to the 6-level curve and does not
fail, but the computation fails with the out-of-bounds interpolation
error (scipy interpn keeps its default bounds_error=True). -/
theorem pwv_above_grid_fails_instead_of_clamping :
    ((6 : ℚ) < 7/2 * 2)
      ∧ transmission [(0, 7/2), (100, 7/2)]
          ⟨[7000, 8500, 10000],
            [(2, [9/10, 8/10, 7/10]), (6, [6/10, 5/10, 4/10])]⟩
          ⟨50, some 0⟩ 2
        = .error (.interpOutOfBounds "one of the requested xi is out of bounds") := by
  refine ⟨by norm_num, ?_⟩
  norm_num [transmission, check_transmission_args, line_of_sight_pwv, npInterp,
    interpolate_spectrum, interpn, in_bounds, interp_point, find_index, searchsorted,
    norm_dist, grid_value, List.filter, List.min?, List.max?, List.takeWhile, List.zip]

/-- C8: a query whose datetime carries no timezone information is rejected
immediately: the whole transmission computation fails with the
InvalidArgument (ValueError) raised by the timezone check, for every
series, grid and airmass. -/
theorem naive_datetime_rejected (series : List (ℚ × ℚ)) (grid : Grid)
    (date : PyDatetime) (airmass : ℚ) (h : date.tzinfo = none) :
    transmission series grid date airmass
      = .error (.invalidArgument "date has no timezone information") := by
  simp [transmission, check_transmission_args, h]

/-- Witness for C8 at a concrete naive datetime. -/
theorem naive_datetime_rejected_witness :
    transmission [(0, 3), (100, 3)] ⟨[7000], [(2, [1]), (6, [1])]⟩ ⟨50, none⟩ 1
      = .error (.invalidArgument "date has no timezone information") :=
  naive_datetime_rejected [(0, 3), (100, 3)] ⟨[7000], [(2, [1]), (6, [1])]⟩
    ⟨50, none⟩ 1 rfl

/-- C9: with the collaborator state (series and grid) threaded explicitly,
two calls of `transmission` with identical timestamp and airmass return
identical spectra and leave the state unchanged: the computation is a pure
function of its inputs. -/
theorem transmission_deterministic_and_pure
    (st : List (ℚ × ℚ) × Grid) (date : PyDatetime) (airmass : ℚ) :
    (transmission_twice st date airmass).1.1
        = (transmission_twice st date airmass).1.2
      ∧ (transmission_twice st date airmass).2 = st :=
  ⟨rfl, rfl⟩

/-- C10: for `measured_pwv` and `modeled_pwv` an integer month, day or
hour argument is accepted exactly on the ranges 1..12, 1..31 and 1..24
respectively; in particular the value 0 is always rejected with a value
error, so hour 0 fails while hour 24 is accepted. -/
theorem search_month_day_hour_ranges (cy : ℤ) :
    (∀ tab m, (measured_pwv cy tab none (some m) none none).isOk = true
        ↔ 1 ≤ m ∧ m ≤ 12)
  ∧ (∀ tab d, (measured_pwv cy tab none none (some d) none).isOk = true
        ↔ 1 ≤ d ∧ d ≤ 31)
  ∧ (∀ tab h, (measured_pwv cy tab none none none (some h)).isOk = true
        ↔ 1 ≤ h ∧ h ≤ 24)
  ∧ (∀ tab, (measured_pwv cy tab none none none (some 0)).isOk = false)
  ∧ (∀ tab, (measured_pwv cy tab none none none (some 24)).isOk = true)
  ∧ (∀ tab m, (modeled_pwv cy tab none (some m) none none).isOk = true
        ↔ 1 ≤ m ∧ m ≤ 12)
  ∧ (∀ tab d, (modeled_pwv cy tab none none (some d) none).isOk = true
        ↔ 1 ≤ d ∧ d ≤ 31)
  ∧ (∀ tab h, (modeled_pwv cy tab none none none (some h)).isOk = true
        ↔ 1 ≤ h ∧ h ≤ 24)
  ∧ (∀ tab, (modeled_pwv cy tab none none none (some 0)).isOk = false)
  ∧ (∀ tab, (modeled_pwv cy tab none none none (some 24)).isOk = true) := by
  refine ⟨fun tab m => ?_, fun tab d => ?_, fun tab h => ?_, fun tab => ?_,
    fun tab => ?_, fun tab m => ?_, fun tab d => ?_, fun tab h => ?_,
    fun tab => ?_, fun tab => ?_⟩ <;>
  · simp only [measured_pwv, modeled_pwv, check_search_args, check_type]
    split_ifs with hv <;> simp [Except.isOk, Except.toBool] <;> omega


theorem headD_mem {l : List ℚ} (h : l ≠ []) : l.headD 0 ∈ l := by
  cases l with
  | nil => exact absurd rfl h
  | cons a t => simp

theorem getLastD_irrel : ∀ (t : List ℚ) (b d : ℚ),
    (b :: t).getLastD d = (b :: t).getLastD 0
  | [], _, _ => rfl
  | c :: t2, b, d => by simp only [List.getLastD_cons]

theorem getLastD_mem : ∀ {l : List ℚ}, l ≠ [] → l.getLastD 0 ∈ l := by
  intro l
  induction l with
  | nil => intro h; exact absurd rfl h
  | cons a t ih =>
    intro _
    cases t with
    | nil => simp
    | cons b t2 =>
      have hm := ih (by simp)
      rw [List.getLastD_cons, getLastD_irrel]
      exact List.mem_cons_of_mem a hm

theorem sorted_headD_le {l : List ℚ} (hs : List.Sorted (· ≤ ·) l)
    {x : ℚ} (hx : x ∈ l) : l.headD 0 ≤ x := by
  cases l with
  | nil => cases hx
  | cons a t =>
    rcases List.mem_cons.mp hx with rfl | hxt
    · simp
    · simpa using (List.sorted_cons.mp hs).1 x hxt

theorem sorted_le_getLastD : ∀ {l : List ℚ}, List.Sorted (· ≤ ·) l →
    ∀ {x : ℚ}, x ∈ l → x ≤ l.getLastD 0 := by
  intro l
  induction l with
  | nil => intro _ x hx; cases hx
  | cons a t ih =>
    intro hs x hx
    obtain ⟨ha, hst⟩ := List.sorted_cons.mp hs
    cases t with
    | nil =>
      rcases List.mem_cons.mp hx with rfl | h
      · simp
      · cases h
    | cons b t2 =>
      have hlast : (a :: b :: t2).getLastD 0 = (b :: t2).getLastD 0 := by
        rw [List.getLastD_cons, getLastD_irrel]
      rcases List.mem_cons.mp hx with rfl | hxt
      · have h1 : x ≤ b := ha b (by simp)
        have h2 : b ≤ (b :: t2).getLastD 0 := ih hst (by simp)
        rw [hlast]; exact le_trans h1 h2
      · rw [hlast]; exact ih hst hxt

/-- C4 (amended): for a nonempty sorted series and a timezone-aware query,
the check fails with OutOfRange exactly when the query timestamp is at or
before the earliest sample, or at or after the latest sample: equality
with a boundary sample is also rejected, because the code demands samples
strictly on both sides of the query. -/
theorem coverage_out_of_range_iff (date : PyDatetime) (o : ℤ) (a : ℚ)
    (dates : List ℚ) (htz : date.tzinfo = some o) (hne : dates ≠ [])
    (hs : List.Sorted (· ≤ ·) dates) :
    (∃ msg, check_transmission_args date a dates
        = .error (.outOfRange msg))
      ↔ date.epochSeconds ≤ dates.headD 0
        ∨ dates.getLastD 0 ≤ date.epochSeconds := by
  by_cases h1 : date.epochSeconds ≤ dates.headD 0
  · have hfe : dates.filter (fun d => decide (d < date.epochSeconds)) = [] := by
      rw [List.filter_eq_nil_iff]
      intro d hd
      simp only [decide_eq_true_eq, not_lt]
      exact le_trans h1 (sorted_headD_le hs hd)
    constructor
    · intro _; exact Or.inl h1
    · intro _
      refine ⟨"No local SuomiNet data found for datetimes before min date", ?_⟩
      simp [check_transmission_args, htz, hfe]
  · have hmemh : dates.headD 0 ∈ dates := headD_mem hne
    have hfne : (dates.filter (fun d => decide (d < date.epochSeconds))).length ≥ 1 := by
      have : dates.headD 0 ∈ dates.filter (fun d => decide (d < date.epochSeconds)) :=
        List.mem_filter.mpr ⟨hmemh, by simp only [decide_eq_true_eq]; exact lt_of_not_le h1⟩
      have hpos := List.length_pos.mpr (List.ne_nil_of_mem this)
      omega
    by_cases h2 : dates.getLastD 0 ≤ date.epochSeconds
    · have hf2 : dates.filter (fun d => decide (date.epochSeconds < d)) = [] := by
        rw [List.filter_eq_nil_iff]
        intro d hd
        simp only [decide_eq_true_eq, not_lt]
        exact le_trans (sorted_le_getLastD hs hd) h2
      constructor
      · intro _; exact Or.inr h2
      · intro _
        refine ⟨"No local SuomiNet data found for datetimes after max date", ?_⟩
        simp only [check_transmission_args, htz]
        rw [if_neg (by omega), hf2]
        simp
    · have hmeml : dates.getLastD 0 ∈ dates := getLastD_mem hne
      have hfne2 : (dates.filter (fun d => decide (date.epochSeconds < d))).length ≥ 1 := by
        have : dates.getLastD 0 ∈ dates.filter (fun d => decide (date.epochSeconds < d)) :=
          List.mem_filter.mpr ⟨hmeml, by simp only [decide_eq_true_eq]; exact lt_of_not_le h2⟩
        have hpos := List.length_pos.mpr (List.ne_nil_of_mem this)
        omega
      constructor
      · rintro ⟨msg, hmsg⟩
        exfalso
        simp only [check_transmission_args, htz] at hmsg
        rw [if_neg (by omega), if_neg (by omega)] at hmsg
        split at hmsg <;> cases hmsg
      · rintro (h | h)
        · exact absurd h h1
        · exact absurd h h2

/-- Witness for C4 at a concrete input: dates [0, 100], query timestamp 0
(equal to the earliest sample) is rejected with OutOfRange. -/
theorem coverage_out_of_range_iff_witness :
    ∃ msg, check_transmission_args ⟨0, some 0⟩ 1 [0, 100]
      = .error (.outOfRange msg) :=
  (coverage_out_of_range_iff ⟨0, some 0⟩ 0 1 [0, 100] rfl (by decide)
    (by decide)).mpr (Or.inl (by norm_num))

/-- C2 (amended): a scalar pwv outside the closed span of the grid's PWV
levels makes the spectrum interpolation fail with the out-of-bounds
interpolation error — the code does not clamp to the boundary curve,
because the interpn call keeps scipy's default bounds_error=True. -/
theorem out_of_grid_pwv_errors (grid : Grid) (pwv : ℚ)
    (hne : grid.wavelength ≠ [])
    (h : pwv < (grid.curves.map Prod.fst).headD 0
        ∨ (grid.curves.map Prod.fst).getLastD 0 < pwv) :
    interpolate_spectrum grid pwv
      = .error (.interpOutOfBounds "one of the requested xi is out of bounds") := by
  unfold interpolate_spectrum interpn
  rw [if_neg]
  intro hall
  obtain ⟨w, hw⟩ := List.exists_mem_of_ne_nil grid.wavelength hne
  have hq := List.all_eq_true.mp hall (pwv, w)
    (List.mem_map_of_mem (fun x => (pwv, x)) hw)
  simp only [Bool.and_eq_true, in_bounds, decide_eq_true_eq] at hq
  rcases h with h | h
  · exact absurd hq.1.1 (not_le.mpr h)
  · exact absurd hq.1.2 (not_le.mpr h)

/-- Witness for C2 (amended) at a concrete grid: levels 2 and 6, query
pwv 7 above the maximum level fails with the out-of-bounds error. -/
theorem out_of_grid_pwv_errors_witness :
    interpolate_spectrum
        ⟨[7000, 8500, 10000], [(2, [9, 8, 7]), (6, [6, 5, 4])]⟩ 7
      = .error (.interpOutOfBounds "one of the requested xi is out of bounds") :=
  out_of_grid_pwv_errors
    ⟨[7000, 8500, 10000], [(2, [9, 8, 7]), (6, [6, 5, 4])]⟩ 7
    (by decide) (Or.inr (by decide))


theorem npInterp_bracket (t0 p0 t1 p1 t : ℚ) :
    ∀ pre : List (ℚ × ℚ), ∀ post : List (ℚ × ℚ),
    List.Sorted (· < ·)
      ((pre ++ (t0, p0) :: (t1, p1) :: post).map Prod.fst) →
    t0 ≤ t → t ≤ t1 →
    npInterp t (pre ++ (t0, p0) :: (t1, p1) :: post)
      = p0 + (p1 - p0) * (t - t0) / (t1 - t0) := by
  intro pre
  induction pre with
  | nil =>
    intro post _ h0 h1
    simp only [List.nil_append, npInterp]
    rw [if_neg (not_lt.mpr h0), if_pos h1]
  | cons hd pre2 ih =>
    intro post hs h0 h1
    obtain ⟨a, fa⟩ := hd
    rw [List.cons_append, List.map_cons] at hs
    obtain ⟨hafirst, hs'⟩ := List.sorted_cons.mp hs
    have hat0 : a < t0 := hafirst t0 (by simp)
    cases pre2 with
    | nil =>
      simp only [List.cons_append, List.nil_append, npInterp]
      rw [if_neg (not_lt.mpr (le_trans (le_of_lt hat0) h0))]
      by_cases he : t ≤ t0
      · have heq : t = t0 := le_antisymm he h0
        subst heq
        rw [if_pos le_rfl]
        have hne : t - a ≠ 0 := sub_ne_zero.mpr (ne_of_gt hat0)
        field_simp
      · rw [if_neg he]
        have := ih post hs' h0 h1
        simpa using this
    | cons hd2 pre3 =>
      obtain ⟨b, fb⟩ := hd2
      have hbt0 : b < t0 := by
        have h2 := hs'
        rw [List.cons_append, List.map_cons] at h2
        exact (List.sorted_cons.mp h2).1 t0 (by simp)
      simp only [List.cons_append, npInterp]
      rw [if_neg (not_lt.mpr (le_trans (le_of_lt hat0) h0)),
        if_neg (not_le.mpr (lt_of_lt_of_le hbt0 h0))]
      have := ih post hs' h0 h1
      simpa using this

/-- C7: for a validated in-range query bracketed by two consecutive
samples (t0, p0) and (t1, p1) of the sorted series, the line-of-sight PWV
computed by `transmission` equals the piecewise-linear interpolation of
zenith PWV at the query timestamp multiplied by the airmass. -/
theorem line_of_sight_pwv_linear (pre post : List (ℚ × ℚ))
    (t0 p0 t1 p1 t airmass : ℚ)
    (hs : List.Sorted (· < ·)
      ((pre ++ (t0, p0) :: (t1, p1) :: post).map Prod.fst))
    (h0 : t0 ≤ t) (h1 : t ≤ t1) :
    line_of_sight_pwv (pre ++ (t0, p0) :: (t1, p1) :: post) t airmass
      = (p0 + (p1 - p0) * (t - t0) / (t1 - t0)) * airmass := by
  unfold line_of_sight_pwv
  rw [npInterp_bracket t0 p0 t1 p1 t pre post hs h0 h1]

/-- Witness for C7, the spec's concrete scenario 1: series
[(0, 2mm), (3600, 4mm)], airmass 2, query t = 1800 gives a line-of-sight
PWV of 6mm. -/
theorem line_of_sight_pwv_linear_witness :
    line_of_sight_pwv [(0, 2), (3600, 4)] 1800 2 = 6 := by
  have h := line_of_sight_pwv_linear [] [] 0 2 3600 4 1800 2
    (by decide) (by norm_num) (by norm_num)
  simp only [List.nil_append] at h
  rw [h]
  norm_num


theorem getD_mem_of_lt {l : List ℚ} {n : Nat} (h : n < l.length) :
    l.getD n 0 ∈ l := by
  rw [List.getD_eq_get l 0 h]
  exact List.get_mem l n h

theorem searchsorted_node : ∀ {xs : List ℚ}, List.Sorted (· < ·) xs →
    ∀ {k : Nat}, k < xs.length → searchsorted xs (xs.getD k 0) = k := by
  intro xs
  induction xs with
  | nil => intro _ k hk; simp at hk
  | cons a t ih =>
    intro hs k hk
    obtain ⟨ha, hst⟩ := List.sorted_cons.mp hs
    cases k with
    | zero =>
      simp only [List.getD_cons_zero, searchsorted]
      rw [List.takeWhile_cons]
      simp
    | succ k2 =>
      have hk2 : k2 < t.length := by simpa using hk
      have halt : a < t.getD k2 0 := ha _ (getD_mem_of_lt hk2)
      simp only [List.getD_cons_succ, searchsorted]
      rw [List.takeWhile_cons, if_pos (by simpa using halt)]
      simp only [List.length_cons]
      have hrec := ih hst hk2
      simp only [searchsorted] at hrec
      omega

theorem find_index_node {xs : List ℚ} (hs : List.Sorted (· < ·) xs)
    (h2 : 2 ≤ xs.length) {k : Nat} (hk : k < xs.length) :
    find_index xs (xs.getD k 0) = if k = 0 then 0 else k - 1 := by
  unfold find_index
  rw [searchsorted_node hs hk]
  cases k with
  | zero => simp
  | succ k2 =>
    rw [if_neg (Nat.succ_ne_zero k2)]
    simp only [Nat.add_sub_cancel]
    omega

theorem sorted_getD_lt_getD_succ {xs : List ℚ} (hs : List.Sorted (· < ·) xs)
    {k : Nat} (hk : k + 1 < xs.length) :
    xs.getD k 0 < xs.getD (k + 1) 0 := by
  have hk0 : k < xs.length := Nat.lt_of_succ_lt hk
  rw [List.getD_eq_get xs 0 hk0, List.getD_eq_get xs 0 hk]
  exact List.pairwise_iff_get.mp hs ⟨k, hk0⟩ ⟨k + 1, hk⟩ (by simp [Fin.lt_def])

theorem norm_dist_node {xs : List ℚ} (hs : List.Sorted (· < ·) xs)
    (h2 : 2 ≤ xs.length) {k : Nat} (hk : k < xs.length) :
    norm_dist xs (xs.getD k 0) = if k = 0 then 0 else 1 := by
  unfold norm_dist
  rw [find_index_node hs h2 hk]
  cases k with
  | zero => simp
  | succ k2 =>
    rw [if_neg (Nat.succ_ne_zero k2), if_neg (Nat.succ_ne_zero k2)]
    simp only [Nat.add_sub_cancel]
    have hsucc : k2 + 1 < xs.length ∨ k2 + 1 = xs.length - 0 := by omega
    have hlt : xs.getD k2 0 < xs.getD (k2 + 1) 0 :=
      sorted_getD_lt_getD_succ hs hk
    rw [div_self (sub_ne_zero.mpr (ne_of_gt hlt))]

theorem interp_point_at_node (levels wl : List ℚ) (V : List (List ℚ))
    (p : ℚ) (hsw : List.Sorted (· < ·) wl) (h2w : 2 ≤ wl.length)
    {j : Nat} (hj : j < wl.length) :
    interp_point levels wl V p (wl.getD j 0)
      = (1 - norm_dist levels p) * grid_value V (find_index levels p) j
        + norm_dist levels p * grid_value V (find_index levels p + 1) j := by
  simp only [interp_point]
  rw [find_index_node hsw h2w hj, norm_dist_node hsw h2w hj]
  cases j with
  | zero => simp
  | succ j2 =>
    rw [if_neg (Nat.succ_ne_zero j2), if_neg (Nat.succ_ne_zero j2)]
    simp only [Nat.add_sub_cancel]
    ring

theorem interp_point_node (levels wl : List ℚ) (V : List (List ℚ))
    (hsl : List.Sorted (· < ·) levels) (h2l : 2 ≤ levels.length)
    (hsw : List.Sorted (· < ·) wl) (h2w : 2 ≤ wl.length)
    {k : Nat} (hk : k < levels.length) {j : Nat} (hj : j < wl.length) :
    interp_point levels wl V (levels.getD k 0) (wl.getD j 0)
      = grid_value V k j := by
  rw [interp_point_at_node levels wl V _ hsw h2w hj,
    find_index_node hsl h2l hk, norm_dist_node hsl h2l hk]
  cases k with
  | zero => simp
  | succ k2 =>
    rw [if_neg (Nat.succ_ne_zero k2), if_neg (Nat.succ_ne_zero k2)]
    simp only [Nat.add_sub_cancel]
    ring

theorem in_bounds_of_mem {l : List ℚ} (hs : List.Sorted (· ≤ ·) l)
    {x : ℚ} (hx : x ∈ l) : in_bounds l x = true := by
  simp only [in_bounds, Bool.and_eq_true, decide_eq_true_eq]
  exact ⟨sorted_headD_le hs hx, sorted_le_getLastD hs hx⟩

/-- C5: if the query pwv equals the k-th grid level exactly, the spectrum
interpolation returns that level's transmission row unchanged at every
wavelength. -/
theorem interpolation_exact_at_grid_level (grid : Grid) (k : Nat) (p : ℚ)
    (row : List ℚ)
    (hsl : List.Sorted (· < ·) (grid.curves.map Prod.fst))
    (hsw : List.Sorted (· < ·) grid.wavelength)
    (h2l : 2 ≤ grid.curves.length) (h2w : 2 ≤ grid.wavelength.length)
    (hk : k < grid.curves.length)
    (hlev : (grid.curves.map Prod.fst).getD k 0 = p)
    (hrowk : (grid.curves.map Prod.snd).getD k [] = row)
    (hrow : row.length = grid.wavelength.length) :
    interpolate_spectrum grid p = .ok row := by
  have hklev : k < (grid.curves.map Prod.fst).length := by simpa using hk
  have hpmem : p ∈ grid.curves.map Prod.fst := by
    rw [← hlev]; exact getD_mem_of_lt hklev
  have hslle : List.Sorted (· ≤ ·) (grid.curves.map Prod.fst) :=
    hsl.imp le_of_lt
  have hswle : List.Sorted (· ≤ ·) grid.wavelength := hsw.imp le_of_lt
  unfold interpolate_spectrum interpn
  have hall : ∀ q ∈ grid.wavelength.map (fun x => (p, x)),
      (in_bounds (grid.curves.map Prod.fst) q.1
        && in_bounds grid.wavelength q.2) = true := by
    intro q hq
    rw [List.mem_map] at hq
    obtain ⟨w, hw, rfl⟩ := hq
    simp only [Bool.and_eq_true]
    exact ⟨in_bounds_of_mem hslle hpmem, in_bounds_of_mem hswle hw⟩
  rw [if_pos (List.all_eq_true.mpr hall)]
  congr 1
  rw [List.map_map]
  apply List.ext_get
  · simpa using hrow.symm
  · intro n h1 h2
    have hn : n < grid.wavelength.length := by simpa using h1
    rw [List.get_map]
    simp only [Function.comp]
    rw [show grid.wavelength.get ⟨n, hn⟩ = grid.wavelength.getD n 0 from
      (List.getD_eq_get _ _ hn).symm]
    rw [← hlev]
    rw [interp_point_node _ _ _ hsl (by simpa using h2l) hsw h2w
      (by simpa using hk) hn]
    unfold grid_value
    rw [hrowk]
    exact List.getD_eq_get row 0 h2

/-- Witness for C5, the spec's concrete scenario 2 with integer-valued
curves: grid levels 2 and 6, query pwv = 6 returns the 6-level row
exactly. -/
theorem interpolation_exact_at_grid_level_witness :
    interpolate_spectrum
        ⟨[7000, 8500, 10000], [(2, [9, 8, 7]), (6, [6, 5, 4])]⟩ 6
      = .ok [6, 5, 4] :=
  interpolation_exact_at_grid_level
    ⟨[7000, 8500, 10000], [(2, [9, 8, 7]), (6, [6, 5, 4])]⟩ 1 6 [6, 5, 4]
    (by decide) (by decide) (by decide) (by decide) (by decide) (by decide)
    (by decide) (by decide)


theorem convex_combo_between {a b tt : ℚ} (h0 : 0 ≤ tt) (h1 : tt ≤ 1) :
    min a b ≤ (1 - tt) * a + tt * b ∧ (1 - tt) * a + tt * b ≤ max a b := by
  rcases le_total a b with hab | hab
  · constructor
    · rw [min_eq_left hab]; nlinarith
    · rw [max_eq_right hab]; nlinarith
  · constructor
    · rw [min_eq_right hab]; nlinarith
    · rw [max_eq_left hab]; nlinarith

theorem searchsorted_between {p : ℚ} : ∀ {xs : List ℚ},
    List.Sorted (· < ·) xs →
    ∀ {k : Nat}, k + 1 < xs.length → xs.getD k 0 < p →
    p ≤ xs.getD (k + 1) 0 → searchsorted xs p = k + 1 := by
  intro xs
  induction xs with
  | nil => intro _ k hk _ _; simp at hk
  | cons a t ih =>
    intro hs k hk hlo hhi
    obtain ⟨ha, hst⟩ := List.sorted_cons.mp hs
    cases k with
    | zero =>
      have hk0 : 0 < t.length := by simpa using hk
      simp only [List.getD_cons_zero] at hlo
      simp only [List.getD_cons_succ] at hhi
      simp only [searchsorted]
      rw [List.takeWhile_cons, if_pos (by simpa using hlo)]
      cases t with
      | nil => simp at hk0
      | cons b t2 =>
        simp only [List.getD_cons_zero] at hhi
        rw [List.takeWhile_cons, if_neg (by simpa using not_lt.mpr hhi)]
        rfl
    | succ k2 =>
      have hk2 : k2 + 1 < t.length := by simpa using hk
      simp only [List.getD_cons_succ] at hlo hhi
      have hap : a < p :=
        lt_trans (ha _ (getD_mem_of_lt (Nat.lt_of_succ_lt hk2))) hlo
      simp only [searchsorted]
      rw [List.takeWhile_cons, if_pos (by simpa using hap)]
      simp only [List.length_cons]
      have hrec := ih hst hk2 hlo hhi
      simp only [searchsorted] at hrec
      omega

theorem find_index_between {xs : List ℚ} (hs : List.Sorted (· < ·) xs)
    {p : ℚ} {k : Nat} (hk : k + 1 < xs.length) (hlo : xs.getD k 0 < p)
    (hhi : p ≤ xs.getD (k + 1) 0) :
    find_index xs p = k := by
  unfold find_index
  rw [searchsorted_between hs hk hlo hhi]
  simp only [Nat.add_sub_cancel]
  omega

theorem norm_dist_between_bounds {xs : List ℚ} (hs : List.Sorted (· < ·) xs)
    {p : ℚ} {k : Nat} (hk : k + 1 < xs.length) (hlo : xs.getD k 0 < p)
    (hhi : p ≤ xs.getD (k + 1) 0) :
    0 ≤ norm_dist xs p ∧ norm_dist xs p ≤ 1 := by
  unfold norm_dist
  rw [find_index_between hs hk hlo hhi]
  have hd : 0 < xs.getD (k + 1) 0 - xs.getD k 0 := by
    have := sorted_getD_lt_getD_succ hs hk
    linarith
  constructor
  · exact div_nonneg (by linarith) (le_of_lt hd)
  · rw [div_le_one hd]; linarith

/-- C6: for a scalar pwv strictly between two adjacent grid PWV levels,
the interpolation succeeds and every interpolated transmission value lies
between (inclusive) the two bracketing rows' values at the same
wavelength index. -/
theorem interpolation_between_adjacent_levels (grid : Grid) (k : Nat)
    (p : ℚ)
    (hsl : List.Sorted (· < ·) (grid.curves.map Prod.fst))
    (hsw : List.Sorted (· < ·) grid.wavelength)
    (h2w : 2 ≤ grid.wavelength.length)
    (hk : k + 1 < grid.curves.length)
    (hlo : (grid.curves.map Prod.fst).getD k 0 < p)
    (hhi : p < (grid.curves.map Prod.fst).getD (k + 1) 0) :
    ∃ res, interpolate_spectrum grid p = .ok res
      ∧ res.length = grid.wavelength.length
      ∧ ∀ j, j < grid.wavelength.length →
          min (grid_value (grid.curves.map Prod.snd) k j)
              (grid_value (grid.curves.map Prod.snd) (k + 1) j)
            ≤ res.getD j 0
          ∧ res.getD j 0
            ≤ max (grid_value (grid.curves.map Prod.snd) k j)
                  (grid_value (grid.curves.map Prod.snd) (k + 1) j) := by
  have hklev : k + 1 < (grid.curves.map Prod.fst).length := by simpa using hk
  have hslle : List.Sorted (· ≤ ·) (grid.curves.map Prod.fst) :=
    hsl.imp le_of_lt
  have hswle : List.Sorted (· ≤ ·) grid.wavelength := hsw.imp le_of_lt
  have hmemk : (grid.curves.map Prod.fst).getD k 0 ∈ grid.curves.map Prod.fst :=
    getD_mem_of_lt (Nat.lt_of_succ_lt hklev)
  have hmemk1 : (grid.curves.map Prod.fst).getD (k + 1) 0
      ∈ grid.curves.map Prod.fst := getD_mem_of_lt hklev
  have hpb : in_bounds (grid.curves.map Prod.fst) p = true := by
    simp only [in_bounds, Bool.and_eq_true, decide_eq_true_eq]
    constructor
    · exact le_trans (sorted_headD_le hslle hmemk) (le_of_lt hlo)
    · exact le_trans (le_of_lt hhi) (sorted_le_getLastD hslle hmemk1)
  unfold interpolate_spectrum interpn
  have hall : ∀ q ∈ grid.wavelength.map (fun x => (p, x)),
      (in_bounds (grid.curves.map Prod.fst) q.1
        && in_bounds grid.wavelength q.2) = true := by
    intro q hq
    rw [List.mem_map] at hq
    obtain ⟨w, hw, rfl⟩ := hq
    simp only [Bool.and_eq_true]
    exact ⟨hpb, in_bounds_of_mem hswle hw⟩
  rw [if_pos (List.all_eq_true.mpr hall)]
  refine ⟨_, rfl, by simp, ?_⟩
  intro j hj
  have hgetD : ((grid.wavelength.map (fun x => (p, x))).map
      (fun q => interp_point (grid.curves.map Prod.fst) grid.wavelength
        (grid.curves.map Prod.snd) q.1 q.2)).getD j 0
      = interp_point (grid.curves.map Prod.fst) grid.wavelength
          (grid.curves.map Prod.snd) p (grid.wavelength.getD j 0) := by
    rw [List.map_map]
    have hjlen : j < (grid.wavelength.map
        ((fun q => interp_point (grid.curves.map Prod.fst) grid.wavelength
          (grid.curves.map Prod.snd) q.1 q.2) ∘ (fun x => (p, x)))).length := by
      simpa using hj
    rw [List.getD_eq_get _ _ hjlen, List.get_map]
    simp only [Function.comp]
    rw [show grid.wavelength.get ⟨j, hj⟩ = grid.wavelength.getD j 0 from
      (List.getD_eq_get _ _ hj).symm]
  rw [hgetD]
  rw [interp_point_at_node _ _ _ _ hsw h2w hj]
  rw [find_index_between hsl hklev hlo (le_of_lt hhi)]
  have hbounds := norm_dist_between_bounds hsl hklev hlo (le_of_lt hhi)
  exact convex_combo_between hbounds.1 hbounds.2

/-- Witness for C6 at a concrete grid: levels 2 and 6 with integer rows,
query pwv = 4 strictly between them; each value of the result lies between
the two rows' values. -/
theorem interpolation_between_adjacent_levels_witness :
    ∃ res, interpolate_spectrum
        ⟨[7000, 8500, 10000], [(2, [9, 8, 7]), (6, [6, 5, 4])]⟩ 4
      = .ok res
      ∧ res.length = 3
      ∧ ∀ j, j < 3 →
          min (grid_value [[9, 8, 7], [6, 5, 4]] 0 j)
              (grid_value [[9, 8, 7], [6, 5, 4]] 1 j)
            ≤ res.getD j 0
          ∧ res.getD j 0
            ≤ max (grid_value [[9, 8, 7], [6, 5, 4]] 0 j)
                  (grid_value [[9, 8, 7], [6, 5, 4]] 1 j) :=
  interpolation_between_adjacent_levels
    ⟨[7000, 8500, 10000], [(2, [9, 8, 7]), (6, [6, 5, 4])]⟩ 0 4
    (by decide) (by decide) (by decide) (by decide) (by decide) (by decide)

end PwvKpno
